import Mathlib

/-!
Verification of the vscode-ns-ts SuiteCloud helper extension.

The TypeScript sources are shallowly embedded as pure Lean functions.
File-system state is passed explicitly (`FsState`), subprocess runs are
records of their observable outcome, and the Node `path` module (posix
flavour, separator `/`) together with JavaScript string/regex operations
are modelled by executable character-list functions defined below.
-/

/-- Whitespace characters recognised by JavaScript `\s` / `trim` for the
inputs that occur here (space, tab, newline, carriage return). -/
def jsSpace (c : Char) : Bool :=
  c = ' ' || c = '\t' || c = '\n' || c = '\r'

/-- Boolean list-prefix test, models `String.prototype.startsWith` at the
character level. -/
def isPre : List Char → List Char → Bool
  | [], _ => true
  | _ :: _, [] => false
  | a :: as, b :: bs => a = b && isPre as bs

/-- Models `String.prototype.startsWith`: does `s` start with `q`? -/
def strStarts (s q : String) : Bool :=
  isPre q.data s.data

/-- Substring containment on character lists: does `l` contain `pat` as a
contiguous run?  Models `String.prototype.includes`. -/
def containsSub : List Char → List Char → Bool
  | [], pat => pat.isEmpty
  | l@(_ :: t), pat => isPre pat l || containsSub t pat

/-- Models `String.prototype.includes`. -/
def strContains (s pat : String) : Bool :=
  containsSub s.data pat.data

/-- Split a character list at every occurrence of `c`; models
`String.prototype.split` with a single-character separator. -/
def splitOnChar (c : Char) : List Char → List (List Char)
  | [] => [[]]
  | x :: xs =>
    if x = c then [] :: splitOnChar c xs
    else
      match splitOnChar c xs with
      | [] => [[x]]
      | h :: t => (x :: h) :: t

/-- Join character lists with a single-character separator; models
`Array.prototype.join`. -/
def intercalChar (c : Char) : List (List Char) → List Char
  | [] => []
  | [x] => x
  | x :: xs => x ++ c :: intercalChar c xs

/-- JavaScript word character (`\w`, i.e. `[A-Za-z0-9_]`). -/
def isWordChar (c : Char) : Bool :=
  c.isAlpha || c.isDigit || c = '_'

/-- Trim leading and trailing whitespace from a character list; models
`String.prototype.trim`. -/
def jsTrimList (l : List Char) : List Char :=
  ((l.dropWhile jsSpace).reverse.dropWhile jsSpace).reverse

/-- Models `String.prototype.trim`. -/
def jsTrim (s : String) : String :=
  ⟨jsTrimList s.data⟩

/-- Does `s` end (case-insensitively) with the lowercase literal `suf`?
Models an anchored case-insensitive regex suffix test such as
`/\.(ts)$/i`. -/
def endsWithLower (s suf : String) : Bool :=
  isPre suf.data.reverse (s.data.map Char.toLower).reverse

/-- Models `String.prototype.toUpperCase` (the identifiers here are
ASCII); defined structurally on the character list so that it evaluates
inside the kernel. -/
def strUpper (s : String) : String :=
  ⟨s.data.map Char.toUpper⟩

/-- Test for the sandbox marker regex `/[_-]SB\d*/i` from
`suitecloud.ts::isProduction`.  Since `\d*` matches the empty string, the
regex matches exactly when the identifier contains `_SB` or `-SB`
case-insensitively. -/
def sbMarkerTest (s : String) : Bool :=
  containsSub (strUpper s).data "_SB".data || containsSub (strUpper s).data "-SB".data

/-- After `sb`, the regex `\d+\.` demands at least one digit and the first
non-digit to be a literal dot. -/
def digitsDotAux : List Char → Bool
  | [] => false
  | c :: rest => if c.isDigit then digitsDotAux rest else c = '.'

/-- At least one digit followed (after the digit run) by a dot. -/
def digitsDot : List Char → Bool
  | [] => false
  | c :: rest => c.isDigit && digitsDotAux rest

/-- Scanner for the regex `/\bsb\d+\./i` used on the raw account line:
a word boundary, then `sb` (case-insensitive), one or more digits and a
dot.  `prev` is the character before the current position. -/
def rawSbScan : Option Char → List Char → Bool
  | prev, a :: b :: rest =>
    (!(prev.elim false isWordChar) && (a = 's' || a = 'S')
      && (b = 'b' || b = 'B') && digitsDot rest)
    || rawSbScan (some a) (b :: rest)
  | _, _ => false

/-- Models the regex test `/\bsb\d+\./i.test raw`. -/
def rawSbTest (raw : String) : Bool :=
  rawSbScan none raw.data

/-- Embedding of `suitecloud.ts::isProduction`: an auth id is classified
as production unless a sandbox indicator is detected — the `[_-]SB\d*`
marker, the substrings `SANDBOX`/`SAND` in the uppercased id, or (when a
raw account line is supplied) an `sbN.` domain component. -/
def isProduction (authId : String) (raw : Option String) : Bool :=
  let upper := strUpper authId
  if sbMarkerTest authId then false
  else if strContains upper "SANDBOX" || strContains upper "SAND" then false
  else
    match raw with
    | some r => if rawSbTest r then false else true
    | none => true

/-- C4: the production classifier returns false for "PROD-SB2" (sandbox
marker present), true for "PROD", and true for every identifier in which
no sandbox indicator is detected — production is the default. -/
theorem c4_isProduction_default (s : String)
    (h1 : sbMarkerTest s = false)
    (h2 : strContains (strUpper s) "SANDBOX" = false)
    (h3 : strContains (strUpper s) "SAND" = false) :
    isProduction s none = true
      ∧ isProduction "PROD-SB2" none = false
      ∧ isProduction "PROD" none = true := by
  refine ⟨?_, by decide, by decide⟩
  simp [isProduction, h1, h2, h3]

/-- Witness for C4 at the concrete identifier "STAGING". -/
theorem c4_isProduction_default_witness :
    isProduction "STAGING" none = true
      ∧ isProduction "PROD-SB2" none = false
      ∧ isProduction "PROD" none = true :=
  c4_isProduction_default "STAGING" (by decide) (by decide) (by decide)

/-- C10: the classifier returns false (sandbox) for every identifier whose
uppercase form contains "SAND" or "SANDBOX" or that contains the
`[_-]SB\d*` marker, including identifiers where "SAND" is part of an
unrelated word such as "SANDY-PROD". -/
theorem c10_isProduction_sandbox_indicators (s : String)
    (h : strContains (strUpper s) "SAND" = true
      ∨ strContains (strUpper s) "SANDBOX" = true
      ∨ sbMarkerTest s = true) :
    isProduction s none = false
      ∧ isProduction "SANDY-PROD" none = false := by
  refine ⟨?_, by decide⟩
  unfold isProduction
  rcases h with h | h | h
  · simp [h]
  · simp [h]
  · simp [h]

/-- Witness for C10 at the concrete identifiers "ACME_SB" (marker) and
"SANDY-PROD" (substring). -/
theorem c10_isProduction_sandbox_indicators_witness :
    isProduction "ACME_SB" none = false
      ∧ isProduction "SANDY-PROD" none = false :=
  c10_isProduction_sandbox_indicators "ACME_SB" (Or.inr (Or.inr (by decide)))

/-- Thrown error of the extension: `SuiteCloudError` carries a message
(the optional attached tool result is not needed for these claims). -/
structure SuiteCloudError where
  message : String
deriving DecidableEq, Repr

/-- Explicit file-system state: the set of existing directories and the
existing files with their contents. -/
structure FsState where
  dirs : List String
  files : List (String × String)
deriving DecidableEq, Repr

/-- Models `fs.existsSync`. -/
def existsSync (fs : FsState) (p : String) : Bool :=
  fs.dirs.contains p || (fs.files.map Prod.fst).contains p

/-- Models `fs.existsSync p && fs.statSync(p).isDirectory()`. -/
def dirExists (fs : FsState) (p : String) : Bool :=
  fs.dirs.contains p

/-- Models `fs.existsSync` restricted to files. -/
def fileExists (fs : FsState) (p : String) : Bool :=
  (fs.files.map Prod.fst).contains p

/-- Models Node `path.join` (posix) on normalized, nonempty segments:
concatenation with the `/` separator. -/
def pathJoin (a b : String) : String :=
  a ++ "/" ++ b

/-- Path segments: split on `/` and discard empty parts. -/
def segsOf (l : List Char) : List (List Char) :=
  (splitOnChar '/' l).filter (fun p => !p.isEmpty)

/-- Length of the common prefix of two segment lists. -/
def commonLen : List (List Char) → List (List Char) → Nat
  | a :: as, b :: bs => if a = b then commonLen as bs + 1 else 0
  | _, _ => 0

/-- Models Node `path.posix.relative` for normalized absolute inputs:
drop the common leading segments, go up with `..` for each remaining
segment of the base, then descend into the remaining segments of the
target. -/
def pathRelative (base p : String) : String :=
  let bs := segsOf base.data
  let ps := segsOf p.data
  let n := commonLen bs ps
  ⟨intercalChar '/' (List.replicate (bs.length - n) ['.', '.'] ++ ps.drop n)⟩

/-- Embedding of `suitecloud.ts::getRemotePathForLocal` with the project
root (the result of `findSdfRoot()`) passed explicitly.  The final
`relative.split(path.sep).join('/')` of the source is the identity under
the posix separator and is therefore omitted. -/
def getRemotePathForLocal (fs : FsState) (root : String) (localFilePath : String) :
    Except SuiteCloudError String :=
  let suiteScriptsDir := pathJoin (pathJoin root "FileCabinet") "SuiteScripts"
  if !(existsSync fs suiteScriptsDir) || !(dirExists fs suiteScriptsDir) then
    .error ⟨"SuiteScripts folder not found at project root."⟩
  else if !(strStarts localFilePath suiteScriptsDir) then
    .error ⟨"This command only supports files inside the SuiteScripts folder at the project root."⟩
  else
    .ok ("/SuiteScripts/" ++ pathRelative suiteScriptsDir localFilePath)

/-- Embedding of `suitecloud.ts::getLocalPathForRemote`: strip leading
slashes (the regex `/^\/+/`) and rejoin under `<root>/FileCabinet`. -/
def getLocalPathForRemote (root : String) (remotePath : String) : String :=
  let normalized : String := ⟨remotePath.data.dropWhile (fun c => c = '/')⟩
  pathJoin (pathJoin root "FileCabinet") normalized

/-- A relative path is clean when every `/`-separated part is nonempty and
is neither `.` nor `..` (so Node's normalization leaves it unchanged). -/
def cleanRel (s : String) : Bool :=
  (splitOnChar '/' s.data).all
    (fun part => !part.isEmpty && part ≠ ['.'] && part ≠ ['.', '.'])

/-- An absolute path is clean when it starts with `/` and its remainder is
a clean relative path. -/
def cleanAbs (s : String) : Bool :=
  match s.data with
  | '/' :: rest => cleanRel ⟨rest⟩
  | _ => false

theorem strData_inj {a b : String} (h : a.data = b.data) : a = b := by
  cases a
  cases b
  exact congrArg String.mk h

theorem strData_append (a b : String) : (a ++ b).data = a.data ++ b.data := rfl

theorem splitOnChar_ne_nil (c : Char) (l : List Char) : splitOnChar c l ≠ [] := by
  induction l with
  | nil => simp [splitOnChar]
  | cons x xs ih =>
    by_cases hx : x = c
    · simp [splitOnChar, hx]
    · unfold splitOnChar
      simp only [hx, if_false]
      cases hsp : splitOnChar c xs <;> simp

theorem splitOnChar_append (c : Char) (a b : List Char) :
    splitOnChar c (a ++ c :: b) = splitOnChar c a ++ splitOnChar c b := by
  induction a with
  | nil => simp [splitOnChar]
  | cons x xs ih =>
    by_cases hx : x = c
    · subst hx
      simp [splitOnChar, ih]
    · cases hsp : splitOnChar c xs with
      | nil => exact absurd hsp (splitOnChar_ne_nil c xs)
      | cons h t =>
        simp [splitOnChar, hx, ih, hsp]

theorem intercal_split (c : Char) (l : List Char) :
    intercalChar c (splitOnChar c l) = l := by
  induction l with
  | nil => simp [splitOnChar, intercalChar]
  | cons x xs ih =>
    by_cases hx : x = c
    · subst hx
      cases hsp : splitOnChar x xs with
      | nil => exact absurd hsp (splitOnChar_ne_nil x xs)
      | cons h t =>
        have ih' : intercalChar x (h :: t) = xs := by rw [← hsp]; exact ih
        simp [splitOnChar, hsp, intercalChar, ih']
    · cases hsp : splitOnChar c xs with
      | nil => exact absurd hsp (splitOnChar_ne_nil c xs)
      | cons h t =>
        have ih' : intercalChar c (h :: t) = xs := by rw [← hsp]; exact ih
        cases t with
        | nil =>
          simp [splitOnChar, hx, hsp, intercalChar]
          simpa [intercalChar] using ih'
        | cons h2 t2 =>
          simp [splitOnChar, hx, hsp, intercalChar] at ih' ⊢
          simp [ih']

theorem commonLen_self_append (bs rs : List (List Char)) :
    commonLen bs (bs ++ rs) = bs.length := by
  induction bs with
  | nil => simp [commonLen]
  | cons b bs ih => simp [commonLen, ih]

theorem isPre_append_self (l m : List Char) : isPre l (l ++ m) = true := by
  induction l with
  | nil => simp [isPre]
  | cons a as ih => simp [isPre, ih]

theorem segsOf_of_clean (rel : String) (h : cleanRel rel = true) :
    segsOf rel.data = splitOnChar '/' rel.data := by
  unfold segsOf
  apply List.filter_eq_self.mpr
  intro part hp
  have h' := List.all_eq_true.mp h part hp
  simp only [Bool.and_eq_true] at h'
  simpa using h'.1.1

/-- C2: round-trip invariant of the path mapper.  For every clean local
path `p = <root>/FileCabinet/SuiteScripts/<rel>` under the content folder
(with the content folder present on disk), mapping to the remote path and
back yields `p` again. -/
theorem c2_path_roundtrip (fs : FsState) (root rel : String)
    (_hroot : cleanAbs root = true)
    (hrel : cleanRel rel = true)
    (hdir : dirExists fs (pathJoin (pathJoin root "FileCabinet") "SuiteScripts") = true) :
    Except.map (getLocalPathForRemote root)
      (getRemotePathForLocal fs root
        (pathJoin (pathJoin root "FileCabinet") "SuiteScripts" ++ "/" ++ rel))
      = Except.ok (pathJoin (pathJoin root "FileCabinet") "SuiteScripts" ++ "/" ++ rel) := by
  set ssDir := pathJoin (pathJoin root "FileCabinet") "SuiteScripts" with hss
  have hpd : (ssDir ++ "/" ++ rel).data = ssDir.data ++ '/' :: rel.data := by
    simp [strData_append]
  have hex : existsSync fs ssDir = true := by
    have hc : fs.dirs.contains ssDir = true := hdir
    unfold existsSync
    rw [hc]
    simp
  have hstart : strStarts (ssDir ++ "/" ++ rel) ssDir = true := by
    unfold strStarts
    rw [hpd]
    exact isPre_append_self ssDir.data ('/' :: rel.data)
  have hrelv : pathRelative ssDir (ssDir ++ "/" ++ rel) = rel := by
    unfold pathRelative
    dsimp only
    rw [hpd]
    have hsegs : segsOf (ssDir.data ++ '/' :: rel.data)
        = segsOf ssDir.data ++ segsOf rel.data := by
      unfold segsOf
      rw [splitOnChar_append, List.filter_append]
    rw [hsegs, commonLen_self_append, List.drop_left]
    simp only [Nat.sub_self, List.replicate_zero, List.nil_append]
    rw [segsOf_of_clean rel hrel, intercal_split]
  have hmain : getRemotePathForLocal fs root (ssDir ++ "/" ++ rel)
      = Except.ok ("/SuiteScripts/" ++ rel) := by
    unfold getRemotePathForLocal
    dsimp only
    rw [← hss, hex, hdir, hstart, hrelv]
    simp
  rw [hmain]
  show Except.ok (getLocalPathForRemote root ("/SuiteScripts/" ++ rel))
      = Except.ok (ssDir ++ "/" ++ rel)
  congr 1
  unfold getLocalPathForRemote
  dsimp only
  have hnorm : (("/SuiteScripts/" ++ rel).data.dropWhile (fun c => c = '/'))
      = "SuiteScripts/".data ++ rel.data := rfl
  rw [hnorm]
  apply strData_inj
  have hlit : ("SuiteScripts/" : String).data = "SuiteScripts".data ++ ['/'] := rfl
  simp [strData_append, hss, pathJoin, hlit, List.append_assoc]

/-- Witness for C2 at a concrete project layout. -/
theorem c2_path_roundtrip_witness :
    Except.map (getLocalPathForRemote "/proj")
      (getRemotePathForLocal
        ⟨["/proj/FileCabinet/SuiteScripts"], [("/proj/FileCabinet/SuiteScripts/a/b.ts", "")]⟩
        "/proj"
        (pathJoin (pathJoin "/proj" "FileCabinet") "SuiteScripts" ++ "/" ++ "a/b.ts"))
      = Except.ok (pathJoin (pathJoin "/proj" "FileCabinet") "SuiteScripts" ++ "/" ++ "a/b.ts") :=
  c2_path_roundtrip
    ⟨["/proj/FileCabinet/SuiteScripts"], [("/proj/FileCabinet/SuiteScripts/a/b.ts", "")]⟩
    "/proj" "a/b.ts" (by decide) (by decide) (by decide)

/-- C3: the source checks `localFilePath.startsWith(suiteScriptsDir)`
without a trailing separator, so a path in a sibling folder whose name
merely extends "SuiteScripts" is outside the content folder yet is
silently mapped (to a remote path that escapes via `..`) instead of
raising the typed error; the folder-absent case does raise it. -/
theorem c3_outside_path_not_rejected :
    strStarts "/proj/FileCabinet/SuiteScriptsX/a.js" "/proj/FileCabinet/SuiteScripts/" = false
      ∧ getRemotePathForLocal ⟨["/proj/FileCabinet/SuiteScripts"], []⟩ "/proj"
          "/proj/FileCabinet/SuiteScriptsX/a.js"
          = Except.ok "/SuiteScripts/../SuiteScriptsX/a.js"
      ∧ getRemotePathForLocal ⟨[], []⟩ "/proj" "/proj/FileCabinet/SuiteScripts/a.js"
          = Except.error ⟨"SuiteScripts folder not found at project root."⟩ :=
  ⟨by decide, rfl, rfl⟩

/-- JSON values at parse-tree level.  Numeric literals are kept as their
raw text: nothing in the extension inspects them, only copies them. -/
inductive Json where
  | null
  | bool (b : Bool)
  | num (lit : String)
  | str (s : String)
  | arr (items : List Json)
  | obj (fields : List (String × Json))

/-- First-match field lookup in a JSON object, models JavaScript property
access on a parsed object (whose keys are unique). -/
def lookupField : List (String × Json) → String → Option Json
  | [], _ => none
  | (k', v') :: rest, k => if k' = k then some v' else lookupField rest k

/-- JavaScript property assignment on a parsed object: overwrite the
value of an existing key in place, otherwise append the new key. -/
def setField : List (String × Json) → String → Json → List (String × Json)
  | [], k, v => [(k, v)]
  | (k', v') :: rest, k, v =>
    if k' = k then (k', v) :: rest else (k', v') :: setField rest k v

/-- Models optional-chained property access `json?.field`: `none` on any
non-object value. -/
def jsonGetField (j : Json) (k : String) : Option Json :=
  match j with
  | .obj fields => lookupField fields k
  | _ => none

/-- State of the `project.json` descriptor file, represented at parse
level (`JSON.stringify`/`JSON.parse` of the JavaScript standard library
are assumed to round-trip): `none` means the file is absent,
`some (.error m)` that it exists but `JSON.parse` throws with message
`m`, and `some (.ok j)` that it parses to the value `j`. -/
abbrev ProjFile : Type := Option (Except String Json)

/-- Embedding of `suitecloud.ts::readProjectDefaultAuthId`: `none` when
the file is absent, unparseable, the field is absent or not a string, or
the string is blank after trimming. -/
def readProjectDefaultAuthId (proj : ProjFile) : Option String :=
  match proj with
  | none => none
  | some (.error _) => none
  | some (.ok j) =>
    match jsonGetField j "defaultAuthId" with
    | some (.str v) => if 0 < (jsTrimList v.data).length then some v else none
    | _ => none

/-- Embedding of `suitecloud.ts::setProjectDefaultAuthId`, returning the
outcome together with the resulting descriptor state.  Errors are thrown
before anything is written, so the descriptor is unchanged on the error
paths.  On a non-object, non-array parse result the JavaScript property
assignment throws a TypeError in strict mode (modelled as the thrown
message below); on an array the assigned property is discarded again by
`JSON.stringify`. -/
def setProjectDefaultAuthId (root : String) (proj : ProjFile) (authId : String) :
    Except SuiteCloudError Unit × ProjFile :=
  match proj with
  | none =>
    (.error ⟨"project.json not found at " ++ pathJoin root "project.json"⟩, none)
  | some (.error m) =>
    (.error ⟨"Failed to parse project.json: " ++ m⟩, some (.error m))
  | some (.ok j) =>
    match j with
    | .obj fields =>
      (.ok (), some (.ok (.obj (setField fields "defaultAuthId" (.str authId)))))
    | .arr items => (.ok (), some (.ok (.arr items)))
    | other =>
      (.error ⟨"TypeError: cannot create property on a JSON primitive"⟩, some (.ok other))

theorem lookupField_setField_same (fields : List (String × Json)) (k : String) (v : Json) :
    lookupField (setField fields k v) k = some v := by
  induction fields with
  | nil => simp [setField, lookupField]
  | cons fv rest ih =>
    obtain ⟨k', v'⟩ := fv
    by_cases hk : k' = k
    · simp [setField, lookupField, hk]
    · simp [setField, lookupField, hk, ih]

theorem lookupField_setField_other (fields : List (String × Json)) (k k' : String) (v : Json)
    (hne : k' ≠ k) :
    lookupField (setField fields k v) k' = lookupField fields k' := by
  induction fields with
  | nil => simp [setField, lookupField, Ne.symm hne]
  | cons fv rest ih =>
    obtain ⟨k0, v0⟩ := fv
    by_cases hk : k0 = k
    · subst hk
      simp [setField, lookupField, Ne.symm hne]
    · by_cases hk' : k0 = k'
      · simp [setField, lookupField, hk, hk', hne]
      · simp [setField, lookupField, hk, hk', ih]

/-- C8: rewriting the default auth id of a parsed object descriptor sets
exactly the `defaultAuthId` field, preserves every other top-level field,
and on a missing or unparseable descriptor throws a typed error leaving
the file unchanged. -/
theorem c8_setProjectDefaultAuthId (root authId : String) :
    (∀ fields,
      setProjectDefaultAuthId root (some (Except.ok (Json.obj fields))) authId
        = (Except.ok (),
           some (Except.ok (Json.obj (setField fields "defaultAuthId" (Json.str authId))))))
      ∧ (∀ fields,
          lookupField (setField fields "defaultAuthId" (Json.str authId)) "defaultAuthId"
            = some (Json.str authId))
      ∧ (∀ fields k, k ≠ "defaultAuthId" →
          lookupField (setField fields "defaultAuthId" (Json.str authId)) k
            = lookupField fields k)
      ∧ setProjectDefaultAuthId root none authId
          = (Except.error ⟨"project.json not found at " ++ pathJoin root "project.json"⟩, none)
      ∧ (∀ m, setProjectDefaultAuthId root (some (Except.error m)) authId
          = (Except.error ⟨"Failed to parse project.json: " ++ m⟩, some (Except.error m))) :=
  ⟨fun _ => rfl,
   fun fields => lookupField_setField_same fields "defaultAuthId" (Json.str authId),
   fun fields k hk => lookupField_setField_other fields "defaultAuthId" k (Json.str authId) hk,
   rfl,
   fun _ => rfl⟩

/-- Witness for C8 on a concrete two-field descriptor. -/
theorem c8_setProjectDefaultAuthId_witness :
    setProjectDefaultAuthId "/proj"
        (some (Except.ok (Json.obj [("defaultAuthId", Json.str "OLD"), ("x", Json.null)])))
        "NEW"
      = (Except.ok (),
         some (Except.ok (Json.obj (setField [("defaultAuthId", Json.str "OLD"), ("x", Json.null)]
            "defaultAuthId" (Json.str "NEW")))))
      ∧ lookupField (setField [("defaultAuthId", Json.str "OLD"), ("x", Json.null)]
            "defaultAuthId" (Json.str "NEW")) "x"
          = lookupField [("defaultAuthId", Json.str "OLD"), ("x", Json.null)] "x" :=
  ⟨(c8_setProjectDefaultAuthId "/proj" "NEW").1 [("defaultAuthId", Json.str "OLD"), ("x", Json.null)],
   (c8_setProjectDefaultAuthId "/proj" "NEW").2.2.1
     [("defaultAuthId", Json.str "OLD"), ("x", Json.null)] "x" (by decide)⟩

/-- Protection context computed by `commands.ts::getProtectionContext`. -/
structure ProtectionContext where
  current : Option String
  isProdAccount : Bool
  protectionEnabled : Bool
  targetLabel : String

/-- Embedding of `commands.ts::getProtectionContext` with the
configuration value `productionUploadProtection` and the descriptor state
passed explicitly. -/
def getProtectionContext (protectionSetting : Bool) (proj : ProjFile) : ProtectionContext :=
  let current := readProjectDefaultAuthId proj
  let isProdAccount :=
    match current with
    | some c => isProduction c none
    | none => true
  { current := current
    isProdAccount := isProdAccount
    protectionEnabled := protectionSetting && isProdAccount
    targetLabel :=
      match current with
      | some c => if isProdAccount then c ++ " (PRODUCTION)" else c ++ " (sandbox)"
      | none => "unknown account" }

/-- C9: when no default auth id can be read (file absent, unparseable,
field missing, or blank), the protection context classifies the target as
production, the gate follows the protection setting, and the label is
"unknown account". -/
theorem c9_unknown_account_is_production (ps : Bool) (proj : ProjFile)
    (h : readProjectDefaultAuthId proj = none) :
    (getProtectionContext ps proj).isProdAccount = true
      ∧ (getProtectionContext ps proj).targetLabel = "unknown account"
      ∧ (getProtectionContext ps proj).protectionEnabled = ps
      ∧ readProjectDefaultAuthId none = none
      ∧ (∀ m, readProjectDefaultAuthId (some (Except.error m)) = none)
      ∧ (∀ fields, lookupField fields "defaultAuthId" = none →
          readProjectDefaultAuthId (some (Except.ok (Json.obj fields))) = none)
      ∧ (∀ fields v, lookupField fields "defaultAuthId" = some (Json.str v) →
          jsTrimList v.data = [] →
          readProjectDefaultAuthId (some (Except.ok (Json.obj fields))) = none) := by
  refine ⟨?_, ?_, ?_, rfl, fun m => rfl, ?_, ?_⟩
  · simp [getProtectionContext, h]
  · simp [getProtectionContext, h]
  · simp [getProtectionContext, h]
  · intro fields hf
    simp [readProjectDefaultAuthId, jsonGetField, hf]
  · intro fields v hf ht
    simp [readProjectDefaultAuthId, jsonGetField, hf, ht]

/-- Witness for C9 with an absent descriptor file. -/
theorem c9_unknown_account_is_production_witness :
    (getProtectionContext true none).isProdAccount = true
      ∧ (getProtectionContext true none).targetLabel = "unknown account"
      ∧ (getProtectionContext true none).protectionEnabled = true :=
  ⟨(c9_unknown_account_is_production true none rfl).1,
   (c9_unknown_account_is_production true none rfl).2.1,
   (c9_unknown_account_is_production true none rfl).2.2.1⟩

/-- Test for the regex `/\.(ts|tsx)$/i`. -/
def hasTsOrTsxExt (s : String) : Bool :=
  endsWithLower s ".ts" || endsWithLower s ".tsx"

/-- Models `localTsPath.replace(/\.(ts|tsx)$/i, ".js")`. -/
def replaceTsxExt (s : String) : String :=
  if endsWithLower s ".tsx" then (⟨s.data.take (s.data.length - 4)⟩ : String) ++ ".js"
  else if endsWithLower s ".ts" then (⟨s.data.take (s.data.length - 3)⟩ : String) ++ ".js"
  else s

/-- Observable outcome of one `tsc` child process: whether the spawn
failed, the reported exit code, and the file-system state after the run
(which holds any emitted output). -/
structure TscRun where
  spawnError : Option String
  exitCode : Option Int
  fsAfter : FsState

/-- Embedding of `utils.ts::transpileLocalTsToJs`: the workspace folder
for the source file and the compiler-run outcome are passed explicitly.
The source's check of the compiler exit code is commented out, so
`tsc.exitCode` is deliberately never read: only the existence of the
emitted sibling `.js` file decides success. -/
def transpileLocalTsToJs (fs : FsState) (wsFolder : Option String) (tsc : TscRun)
    (localTsPath : String) : Except SuiteCloudError String :=
  if !(fileExists fs localTsPath || dirExists fs localTsPath) then
    .error ⟨"Local file not found: " ++ localTsPath⟩
  else if !(hasTsOrTsxExt localTsPath) then
    .error ⟨"transpileLocalTsToJs expects a .ts or .tsx file"⟩
  else
    let jsFilePath := replaceTsxExt localTsPath
    match wsFolder with
    | none => .error ⟨"Open a workspace containing your TypeScript project."⟩
    | some _ =>
      match tsc.spawnError with
      | some m => .error ⟨"Failed to start tsc: " ++ m⟩
      | none =>
        if !(fileExists tsc.fsAfter jsFilePath || dirExists tsc.fsAfter jsFilePath) then
          .error ⟨"TypeScript compile did not emit JavaScript next to the source file."⟩
        else .ok jsFilePath

/-- C5: for an existing `.ts`/`.tsx` source (with a workspace folder and
a successful spawn), the transpile step fails with the
compile-output-missing error exactly when the sibling `.js` file is
absent after the compiler run, succeeds otherwise, and its result never
depends on the compiler's own exit code. -/
theorem c5_transpile_output_check (fs : FsState) (d : String) (tsc : TscRun) (p : String)
    (hf : fileExists fs p = true)
    (hts : hasTsOrTsxExt p = true)
    (hsp : tsc.spawnError = none) :
    ((transpileLocalTsToJs fs (some d) tsc p
        = Except.error ⟨"TypeScript compile did not emit JavaScript next to the source file."⟩)
      ↔ (fileExists tsc.fsAfter (replaceTsxExt p) || dirExists tsc.fsAfter (replaceTsxExt p))
          = false)
      ∧ ((fileExists tsc.fsAfter (replaceTsxExt p) || dirExists tsc.fsAfter (replaceTsxExt p))
            = true
          → transpileLocalTsToJs fs (some d) tsc p = Except.ok (replaceTsxExt p))
      ∧ (∀ c₁ c₂ : Option Int,
          transpileLocalTsToJs fs (some d) { tsc with exitCode := c₁ } p
            = transpileLocalTsToJs fs (some d) { tsc with exitCode := c₂ } p) := by
  refine ⟨?_, ?_, fun c₁ c₂ => rfl⟩
  · unfold transpileLocalTsToJs
    simp only [hf, hts, hsp, Bool.true_or, Bool.not_true, Bool.false_eq_true, if_false]
    cases hout : (fileExists tsc.fsAfter (replaceTsxExt p) || dirExists tsc.fsAfter (replaceTsxExt p)) <;>
      simp
  · intro hout
    unfold transpileLocalTsToJs
    simp [hf, hts, hsp, hout]

/-- Witness for C5: a compiler run that exits with code 2 but emitted the
`.js` file still succeeds. -/
theorem c5_transpile_output_check_witness :
    transpileLocalTsToJs ⟨[], [("/w/a.ts", "")]⟩ (some "/w")
        ⟨none, some 2, ⟨[], [("/w/a.ts", ""), ("/w/a.js", "")]⟩⟩ "/w/a.ts"
      = Except.ok (replaceTsxExt "/w/a.ts") :=
  (c5_transpile_output_check ⟨[], [("/w/a.ts", "")]⟩ "/w"
      ⟨none, some 2, ⟨[], [("/w/a.ts", ""), ("/w/a.js", "")]⟩⟩ "/w/a.ts"
      (by decide) (by decide) rfl).2.1 (by decide)

/-- Resolved value of `runSuiteCloudIn`. -/
structure SuiteCloudResult where
  stdout : String
  stderr : String
  exitCode : Int
deriving DecidableEq, Repr

/-- Observable facts about one `suitecloud` child process: whether the
spawn failed (the `error` event), the captured streams, the exit code
reported by the `close` event (`none` models a `null` code), whether the
cancellation token fired before the process closed, and whether the host
exposes the `vscode.CancellationError` class. -/
structure ProcRun where
  spawnError : Option String
  stdout : String
  stderr : String
  exitCode : Option Int
  cancelled : Bool
  hasCancellationErrorClass : Bool
deriving DecidableEq, Repr

/-- Settlement of the promise returned by `runSuiteCloudIn`. -/
inductive RunOutcome where
  | spawnFailure (message : String)
  | cancelledSignal
  | cancelledFallback (message : String) (r : SuiteCloudResult)
  | toolFailure (message : String) (r : SuiteCloudResult)
  | success (r : SuiteCloudResult)
deriving DecidableEq, Repr

/-- Render of a JavaScript template `${code}` for the nullable exit
code. -/
def exitCodeText : Option Int → String
  | some c => toString c
  | none => "null"

/-- Embedding of `suitecloud.ts::runSuiteCloudIn`.  A spawn failure
rejects first; otherwise the `close` handler rejects with a cancellation
outcome when the token fired (preferring `vscode.CancellationError`),
rejects with a `SuiteCloudError` carrying the exit code and both streams
when the code is not zero, and resolves otherwise.  (The missing `return`
before the non-zero-exit `reject` in the source is harmless: a settled
promise ignores the subsequent `resolve`.) -/
def runSuiteCloudIn (p : ProcRun) : RunOutcome :=
  match p.spawnError with
  | some m => .spawnFailure ("Failed to run suitecloud: " ++ m)
  | none =>
    if p.cancelled then
      if p.hasCancellationErrorClass then .cancelledSignal
      else
        .cancelledFallback "Operation cancelled by user"
          ⟨p.stdout, p.stderr, p.exitCode.getD (-1)⟩
    else if p.exitCode ≠ some 0 then
      .toolFailure ("suitecloud failed with code " ++ exitCodeText p.exitCode)
        ⟨p.stdout, p.stderr, p.exitCode.getD (-1)⟩
    else .success ⟨p.stdout, p.stderr, p.exitCode.getD (-1)⟩

/-- C6: with the process spawned, a cancellation signal that fired before
exit yields a distinguished cancellation outcome (never the generic
tool-failure rejection); without cancellation, a non-zero exit rejects
with the typed error carrying the exit code and both captured streams,
and a zero exit resolves with the captured streams and exit code 0. -/
theorem c6_runSuiteCloudIn_outcomes (p : ProcRun) (hsp : p.spawnError = none) :
    (p.cancelled = true →
      (runSuiteCloudIn p = .cancelledSignal
        ∨ runSuiteCloudIn p
            = .cancelledFallback "Operation cancelled by user"
                ⟨p.stdout, p.stderr, p.exitCode.getD (-1)⟩)
      ∧ (∀ m r, runSuiteCloudIn p ≠ .toolFailure m r)
      ∧ (∀ r, runSuiteCloudIn p ≠ .success r))
      ∧ (p.cancelled = false → ∀ c : Int, p.exitCode = some c → c ≠ 0 →
          runSuiteCloudIn p
            = .toolFailure ("suitecloud failed with code " ++ toString c)
                ⟨p.stdout, p.stderr, c⟩)
      ∧ (p.cancelled = false → p.exitCode = some 0 →
          runSuiteCloudIn p = .success ⟨p.stdout, p.stderr, 0⟩) := by
  refine ⟨?_, ?_, ?_⟩
  · intro hc
    unfold runSuiteCloudIn
    rw [hsp, hc]
    cases hcl : p.hasCancellationErrorClass <;> simp
  · intro hc c hcode hc0
    unfold runSuiteCloudIn
    rw [hsp, hc, hcode]
    simp [exitCodeText, hc0]
  · intro hc hcode
    unfold runSuiteCloudIn
    rw [hsp, hc, hcode]
    simp

/-- Witness for C6: a cancelled run, a failed run with exit code 3, and a
successful run at concrete process outcomes. -/
theorem c6_runSuiteCloudIn_outcomes_witness :
    (runSuiteCloudIn ⟨none, "o", "e", some 130, true, true⟩ = .cancelledSignal
      ∨ runSuiteCloudIn ⟨none, "o", "e", some 130, true, true⟩
          = .cancelledFallback "Operation cancelled by user" ⟨"o", "e", 130⟩)
      ∧ runSuiteCloudIn ⟨none, "o", "e", some 3, false, true⟩
          = .toolFailure ("suitecloud failed with code " ++ toString (3 : Int)) ⟨"o", "e", 3⟩
      ∧ runSuiteCloudIn ⟨none, "o", "e", some 0, false, true⟩ = .success ⟨"o", "e", 0⟩ :=
  ⟨((c6_runSuiteCloudIn_outcomes ⟨none, "o", "e", some 130, true, true⟩ rfl).1 rfl).1,
   (c6_runSuiteCloudIn_outcomes ⟨none, "o", "e", some 3, false, true⟩ rfl).2.1 rfl 3 rfl
     (by decide),
   (c6_runSuiteCloudIn_outcomes ⟨none, "o", "e", some 0, false, true⟩ rfl).2.2 rfl rfl⟩

/-- Match a literal pattern (given lowercase) case-insensitively at the
head of the input, returning the rest of the input on success. -/
def matchCi : List Char → List Char → Option (List Char)
  | [], l => some l
  | _ :: _, [] => none
  | p :: ps, c :: cs => if c.toLower = p then matchCi ps cs else none

/-- Models `path.basename` for the names that occur here (no trailing
separator). -/
def baseName (p : String) : String :=
  ⟨(splitOnChar '/' p.data).getLastD []⟩

/-- Attempt to match the regex `/\sscriptid\s*=\s*"([^"]+)"/i` at the
current position, returning the captured attribute value. -/
def attrTryAt (l : List Char) : Option (List Char) :=
  match l with
  | [] => none
  | c :: rest =>
    if jsSpace c then
      match matchCi "scriptid".data rest with
      | none => none
      | some r1 =>
        match r1.dropWhile jsSpace with
        | '=' :: r3 =>
          match r3.dropWhile jsSpace with
          | '"' :: r5 =>
            let capture := r5.takeWhile (fun c => c ≠ '"')
            if capture.isEmpty then none
            else
              match r5.drop capture.length with
              | '"' :: _ => some capture
              | _ => none
          | _ => none
        | _ => none
    else none

/-- Leftmost match of the `scriptid` attribute pattern. -/
def scanAttr : List Char → Option (List Char)
  | [] => none
  | l@(_ :: rest) => (attrTryAt l).orElse (fun _ => scanAttr rest)

/-- Attempt to match the regex
`/<\s*scriptid\s*>\s*([^<\s]+)\s*<\s*\/\s*scriptid\s*>/i` at the current
position, returning the captured element text. -/
def elemTryAt (l : List Char) : Option (List Char) :=
  match l with
  | '<' :: r0 =>
    (match matchCi "scriptid".data (r0.dropWhile jsSpace) with
     | none => none
     | some r2 =>
       match r2.dropWhile jsSpace with
       | '>' :: r3 =>
         let r4 := r3.dropWhile jsSpace
         let capture := r4.takeWhile (fun c => c ≠ '<' && !jsSpace c)
         if capture.isEmpty then none
         else
           match (r4.drop capture.length).dropWhile jsSpace with
           | '<' :: r6 =>
             (match r6.dropWhile jsSpace with
              | '/' :: r7 =>
                (match matchCi "scriptid".data (r7.dropWhile jsSpace) with
                 | none => none
                 | some r8 =>
                   match r8.dropWhile jsSpace with
                   | '>' :: _ => some capture
                   | _ => none)
              | _ => none)
           | _ => none
       | _ => none)
  | _ => none

/-- Leftmost match of the `<scriptid>` element pattern. -/
def scanElem : List Char → Option (List Char)
  | [] => none
  | l@(_ :: rest) => (elemTryAt l).orElse (fun _ => scanElem rest)

/-- Embedding of `utils.ts::extractScriptIdFromXml` with the file content
(the result of `fs.readFileSync`) passed as a string: the `scriptid`
attribute is searched first, then a `<scriptid>` child element, and a
descriptive error names the file when neither matches. -/
def extractScriptIdFromXml (xmlFileName data : String) : Except SuiteCloudError String :=
  match scanAttr data.data with
  | some cap => .ok ⟨cap⟩
  | none =>
    match scanElem data.data with
    | some cap => .ok ⟨cap⟩
    | none => .error ⟨"Could not determine scriptid from: " ++ baseName xmlFileName⟩

/-- Rest of the input after the first occurrence of `pat`, if any. -/
def afterSeq : List Char → List Char → Option (List Char)
  | [], pat => if pat.isEmpty then some [] else none
  | l@(_ :: rest), pat =>
    if isPre pat l then some (l.drop pat.length) else afterSeq rest pat

theorem afterSeq_length_le (l : List Char) :
    ∀ pat r, afterSeq l pat = some r → r.length ≤ l.length := by
  induction l with
  | nil =>
    intro pat r h
    unfold afterSeq at h
    split at h
    · have hA := Option.some.inj h
      subst hA
      simp
    · simp at h
  | cons x xs ih =>
    intro pat r h
    unfold afterSeq at h
    split at h
    · have hA := Option.some.inj h
      subst hA
      simp [List.length_drop]
    · have := ih pat r h
      simp [List.length_cons]
      omega

/-- Remove the first XML declaration, modelling
`data.replace(/<\?xml[\s\S]*?\?>/i, "")`: at the first position where
`<?xml` matches (case-insensitively) and a later `?>` exists, the whole
span up to the first `?>` is removed; otherwise the text is unchanged. -/
def removeXmlDecl : List Char → List Char
  | [] => []
  | c :: rest =>
    match matchCi "<?xml".data (c :: rest) with
    | some r1 =>
      match afterSeq r1 "?>".data with
      | some r2 => r2
      | none => c :: removeXmlDecl rest
    | none => c :: removeXmlDecl rest

/-- Scanner for the global comment replacement
`data.replace(/<!--([\s\S]*?)-->/g, "")`.  When `inComment` is set the
characters up to and including the first `-->` are being dropped.  A
`<!--` is only entered when a closing `-->` exists later (otherwise the
regex cannot match there, nor at any later position, since no `-->`
occurs in the remainder at all). -/
def rcAux : Bool → List Char → List Char
  | _, [] => []
  | true, '-' :: '-' :: '>' :: rest => rcAux false rest
  | true, _ :: rest => rcAux true rest
  | false, '<' :: '!' :: '-' :: '-' :: rest =>
    if containsSub rest "-->".data then rcAux true rest
    else '<' :: '!' :: '-' :: '-' :: rest
  | false, c :: rest => c :: rcAux false rest

/-- Remove every XML comment, modelling
`data.replace(/<!--([\s\S]*?)-->/g, "")`: each `<!--` with a later `-->`
is removed up to the first `-->`, and scanning resumes after it. -/
def removeComments (l : List Char) : List Char :=
  rcAux false l

/-- Characters of the regex class `[A-Za-z0-9_:-]`. -/
def tagClassChar (c : Char) : Bool :=
  c.isAlpha || c.isDigit || c = '_' || c = ':' || c = '-'

/-- Backtracking for the trailing `\b` of the root-tag regex: the match
shrinks from the right until it ends in a word character (the character
after the greedy run is never a word character, since the class contains
all word characters). -/
def stripTrailingNonWord (l : List Char) : List Char :=
  (l.reverse.dropWhile (fun c => !isWordChar c)).reverse

/-- Leftmost match of the root-tag regex `/<\s*([A-Za-z0-9_:-]+)\b/`,
returning the captured qualified name. -/
def scanTag : List Char → Option (List Char)
  | [] => none
  | '<' :: r0 =>
    let cap := stripTrailingNonWord ((r0.dropWhile jsSpace).takeWhile tagClassChar)
    if cap.isEmpty then scanTag r0 else some cap
  | _ :: rest => scanTag rest

/-- Embedding of `utils.ts::extractSdfTypeFromXml` with the file content
passed as a string: strip the XML declaration and all comments, trim,
take the first opening tag's name, drop a namespace qualifier (the part
before `:`), and lower-case the result. -/
def extractSdfTypeFromXml (xmlFileName data : String) : Except SuiteCloudError String :=
  let cleaned := jsTrimList (removeComments (removeXmlDecl data.data))
  match scanTag cleaned with
  | none => .error ⟨"Could not determine object type from: " ++ baseName xmlFileName⟩
  | some qname =>
    let localName := if qname.contains ':' then (splitOnChar ':' qname).getD 1 [] else qname
    .ok ⟨localName.map Char.toLower⟩

/-- C7: on a root element `<clientscript scriptid="customscript_foo">`
the extractors return type "clientscript" and id "customscript_foo"; in
general the id extractor prefers the `scriptid` attribute, falls back to
the `<scriptid>` child element, and reports a descriptive error naming
the file when neither pattern matches. -/
theorem c7_extract_metadata :
    extractSdfTypeFromXml "f.xml" "<clientscript scriptid=\"customscript_foo\">"
        = Except.ok "clientscript"
      ∧ extractScriptIdFromXml "f.xml" "<clientscript scriptid=\"customscript_foo\">"
          = Except.ok "customscript_foo"
      ∧ (∀ name data cap, scanAttr data.data = some cap →
          extractScriptIdFromXml name data = Except.ok ⟨cap⟩)
      ∧ (∀ name data cap, scanAttr data.data = none → scanElem data.data = some cap →
          extractScriptIdFromXml name data = Except.ok ⟨cap⟩)
      ∧ (∀ name data, scanAttr data.data = none → scanElem data.data = none →
          extractScriptIdFromXml name data
            = Except.error ⟨"Could not determine scriptid from: " ++ baseName name⟩) := by
  refine ⟨rfl, rfl, ?_, ?_, ?_⟩
  · intro name data cap h
    unfold extractScriptIdFromXml
    rw [h]
  · intro name data cap h1 h2
    unfold extractScriptIdFromXml
    rw [h1, h2]
  · intro name data h1 h2
    unfold extractScriptIdFromXml
    rw [h1, h2]

/-- Witness for C7: the attribute path and the element-fallback path at
concrete XML contents. -/
theorem c7_extract_metadata_witness :
    extractScriptIdFromXml "f.xml" "<clientscript scriptid=\"customscript_foo\">"
        = Except.ok ⟨"customscript_foo".data⟩
      ∧ extractScriptIdFromXml "g.xml" "<scriptid>abc</scriptid>"
          = Except.ok ⟨"abc".data⟩
      ∧ extractScriptIdFromXml "h.xml" "<clientscript>"
          = Except.error ⟨"Could not determine scriptid from: " ++ baseName "h.xml"⟩ :=
  ⟨c7_extract_metadata.2.2.1 "f.xml" "<clientscript scriptid=\"customscript_foo\">"
     "customscript_foo".data rfl,
   c7_extract_metadata.2.2.2.1 "g.xml" "<scriptid>abc</scriptid>" "abc".data rfl rfl,
   c7_extract_metadata.2.2.2.2 "h.xml" "<clientscript>" rfl rfl⟩

/-- Test for the regex `/\.(ts)$/i` used in `uploadScriptFile`. -/
def hasExtTs (s : String) : Bool :=
  endsWithLower s ".ts"

/-- Test for the regex `/\.(js)$/i` used in `uploadScriptFile`. -/
def hasExtJs (s : String) : Bool :=
  endsWithLower s ".js"

/-- Models `s.replace(/\.(ts)$/i, ".js")`. -/
def replaceTsWithJs (s : String) : String :=
  if endsWithLower s ".ts" then (⟨s.data.take (s.data.length - 3)⟩ : String) ++ ".js"
  else s

/-- Observable steps of the upload workflow: running the compare action,
presenting the confirmation quick-pick, and issuing the upload call. -/
inductive Ev where
  | compareRun
  | confirmPrompt
  | uploadCall
deriving DecidableEq, Repr

/-- Embedding of `commands.ts::compareAndConfirmIfNeeded`, returning the
steps taken and whether the caller may proceed.  When the gate is open
the compare action runs (its failures are caught and only reported, so it
never aborts the flow) and the prompt is shown; dismissing the prompt
resolves `false` exactly like an explicit decline.  Otherwise nothing is
shown and the caller proceeds. -/
def compareAndConfirmIfNeeded (forceConfirm : Bool) (ctx : ProtectionContext)
    (_files : List String) (userAccepts : Bool) : List Ev × Bool :=
  if ctx.protectionEnabled || forceConfirm then
    ([Ev.compareRun, Ev.confirmPrompt], userAccepts)
  else ([], true)

/-- Embedding of `commands.ts::uploadScriptFile` as the list of workflow
steps it performs.  Inputs: the file system, project root, workspace
folder and compiler-run outcome (for the transpile step), the
`productionUploadProtection` setting, the descriptor state, the
`confirm` argument forcing a compare-then-upload flow, the user's answer
to the confirmation prompt, and the active file path.  A non-`.ts`/`.js`
file only produces an error notification; thrown `SuiteCloudError`s
propagate as `Except.error`. -/
def uploadScriptFile (fs : FsState) (root : String) (ws : Option String) (tsc : TscRun)
    (protectionSetting : Bool) (proj : ProjFile) (confirm userAccepts : Bool)
    (localPath : String) : Except SuiteCloudError (List Ev) :=
  let isTs := hasExtTs localPath
  let isJs := hasExtJs localPath
  if !isTs && !isJs then .ok []
  else
    match getRemotePathForLocal fs root localPath with
    | .error e => .error e
    | .ok remoteTsPath =>
      match getRemotePathForLocal fs root localPath with
      | .error e => .error e
      | .ok r2 =>
        let remoteJs := replaceTsWithJs r2
        let compiled : Except SuiteCloudError Unit :=
          if isTs then
            match transpileLocalTsToJs fs ws tsc localPath with
            | .error e => .error e
            | .ok _ => .ok ()
          else .ok ()
        match compiled with
        | .error e => .error e
        | .ok _ =>
          let toUpload :=
            (if isTs then [remoteTsPath] else [])
              ++ [if isTs then remoteJs else remoteTsPath]
          let res := compareAndConfirmIfNeeded confirm
            (getProtectionContext protectionSetting proj) toUpload userAccepts
          if !res.2 then .ok res.1
          else
            let jsRemote := if isTs then remoteJs else remoteTsPath
            let _remotePaths :=
              (if isTs then [remoteTsPath] else [])
                ++ (if hasExtJs jsRemote then [jsRemote] else [])
            .ok (res.1 ++ [Ev.uploadCall])

/-- C1: in the script-upload workflow (for an uploadable `.ts`/`.js`
file whose path maps and, if TypeScript, whose compile succeeds) the
confirmation prompt is presented if and only if the caller forced the
compare-then-upload flow or the target is classified production-like
with the protection setting enabled; declining (or dismissing) the
prompt issues no upload call, and when no prompt is presented the upload
call is issued directly without a confirmation step. -/
theorem c1_upload_confirmation_gate
    (fs : FsState) (root : String) (ws : Option String) (tsc : TscRun)
    (ps : Bool) (proj : ProjFile) (confirm userAccepts : Bool) (localPath : String)
    (hkind : hasExtTs localPath = true ∨ hasExtJs localPath = true)
    (hmap : ∃ r, getRemotePathForLocal fs root localPath = Except.ok r)
    (htr : hasExtTs localPath = true →
      ∃ j, transpileLocalTsToJs fs ws tsc localPath = Except.ok j) :
    ∃ evs,
      uploadScriptFile fs root ws tsc ps proj confirm userAccepts localPath
          = Except.ok evs
        ∧ ((Ev.confirmPrompt ∈ evs)
            ↔ (confirm = true
                ∨ (ps = true ∧ (getProtectionContext ps proj).isProdAccount = true)))
        ∧ (Ev.confirmPrompt ∈ evs → userAccepts = false → Ev.uploadCall ∉ evs)
        ∧ (Ev.confirmPrompt ∉ evs → evs = [Ev.uploadCall])
        ∧ (Ev.confirmPrompt ∈ evs → userAccepts = true →
            evs = [Ev.compareRun, Ev.confirmPrompt, Ev.uploadCall]) := by
  obtain ⟨r, hr⟩ := hmap
  have hguard : (!hasExtTs localPath && !hasExtJs localPath) = false := by
    rcases hkind with h | h <;> simp [h]
  have hpe : (getProtectionContext ps proj).protectionEnabled
      = (ps && (getProtectionContext ps proj).isProdAccount) := rfl
  have hcompiled :
      (if hasExtTs localPath then
        match transpileLocalTsToJs fs ws tsc localPath with
        | .error e => Except.error e
        | .ok _ => Except.ok ()
      else Except.ok ()) = (Except.ok () : Except SuiteCloudError Unit) := by
    cases hts : hasExtTs localPath with
    | false => simp
    | true =>
      obtain ⟨j, hj⟩ := htr hts
      simp [hj]
  by_cases hg : ((getProtectionContext ps proj).protectionEnabled || confirm) = true
  · cases hua : userAccepts with
    | false =>
      refine ⟨[Ev.compareRun, Ev.confirmPrompt], ?_, ?_, ?_, ?_, ?_⟩
      · unfold uploadScriptFile
        simp only [hguard, Bool.false_eq_true, if_false, hr, hcompiled,
          compareAndConfirmIfNeeded, hg, if_true, hua]
        simp
      · simp only [List.mem_cons, List.not_mem_nil]
        rw [hpe] at hg
        simp only [Bool.or_eq_true, Bool.and_eq_true] at hg
        simp
        tauto
      · intro _ _
        simp
      · intro hnot
        exact absurd (by simp) hnot
      · intro _ h
        exact absurd h (by simp)
    | true =>
      refine ⟨[Ev.compareRun, Ev.confirmPrompt, Ev.uploadCall], ?_, ?_, ?_, ?_, ?_⟩
      · unfold uploadScriptFile
        simp only [hguard, Bool.false_eq_true, if_false, hr, hcompiled,
          compareAndConfirmIfNeeded, hg, if_true, hua]
        simp
      · rw [hpe] at hg
        simp only [Bool.or_eq_true, Bool.and_eq_true] at hg
        simp
        tauto
      · intro _ h
        exact absurd h (by simp)
      · intro hnot
        exact absurd (by simp) hnot
      · intro _ _
        rfl
  · have hconf : confirm = false := by
      cases hc : confirm
      · rfl
      · exact absurd (by rw [hc]; simp) hg
    have hpp : (ps && (getProtectionContext ps proj).isProdAccount) = false := by
      cases hb : (ps && (getProtectionContext ps proj).isProdAccount)
      · rfl
      · exact absurd (by rw [hpe, hb]; simp) hg
    refine ⟨[Ev.uploadCall], ?_, ?_, ?_, ?_, ?_⟩
    · unfold uploadScriptFile
      simp only [hguard, Bool.false_eq_true, if_false, hr, hcompiled,
        compareAndConfirmIfNeeded]
      simp only [Bool.not_eq_true] at hg
      simp [hg]
    · constructor
      · intro hmem
        exact absurd hmem (by simp)
      · rintro (hc | ⟨hps, hip⟩)
        · rw [hconf] at hc
          exact absurd hc (by simp)
        · rw [hps] at hip hpp
          rw [hip] at hpp
          exact absurd hpp (by simp)
    · intro h
      exact absurd h (by simp)
    · intro _
      rfl
    · intro h
      exact absurd h (by simp)

/-- Witness for C1: a `.js` upload against an unreadable descriptor
(classified production) with protection on and the prompt declined. -/
theorem c1_upload_confirmation_gate_witness :
    ∃ evs,
      uploadScriptFile
          ⟨["/proj/FileCabinet/SuiteScripts"], [("/proj/FileCabinet/SuiteScripts/a.js", "")]⟩
          "/proj" (some "/proj") ⟨none, some 0, ⟨[], []⟩⟩ true none false false
          "/proj/FileCabinet/SuiteScripts/a.js"
          = Except.ok evs
        ∧ ((Ev.confirmPrompt ∈ evs)
            ↔ (false = true
                ∨ (true = true ∧ (getProtectionContext true none).isProdAccount = true)))
        ∧ (Ev.confirmPrompt ∈ evs → false = false → Ev.uploadCall ∉ evs)
        ∧ (Ev.confirmPrompt ∉ evs → evs = [Ev.uploadCall])
        ∧ (Ev.confirmPrompt ∈ evs → false = true →
            evs = [Ev.compareRun, Ev.confirmPrompt, Ev.uploadCall]) :=
  c1_upload_confirmation_gate
    ⟨["/proj/FileCabinet/SuiteScripts"], [("/proj/FileCabinet/SuiteScripts/a.js", "")]⟩
    "/proj" (some "/proj") ⟨none, some 0, ⟨[], []⟩⟩ true none false false
    "/proj/FileCabinet/SuiteScripts/a.js"
    (Or.inr (by decide))
    ⟨"/SuiteScripts/a.js", rfl⟩
    (fun h => absurd h (by decide))
